import Mathlib

/-!
Verification development for the local AI developer studio
(src/local_ai_dev_studio.py): a shallow embedding of the sandboxed
workspace executor, the JSON plan codec and the agent loop, together
with theorems settling the specification claims.

Strings of the Python program are embedded as lists of characters.
Filesystem state is an explicit record threaded through the executor
operations; the external collaborators (the local LLM provider and the
shell) are parameters of the loop environment.
-/

/-- Python strings are modelled as lists of unicode characters. -/
abbrev Str := List Char

/-- The opening curly brace character (written via its code point). -/
def lbrace : Char := Char.ofNat 123

/-- The closing curly brace character (written via its code point). -/
def rbrace : Char := Char.ofNat 125

/-- The double-quote character. -/
def quoteC : Char := Char.ofNat 34

/-- The backslash character. -/
def backslashC : Char := Char.ofNat 92

/-- The apostrophe character. -/
def aposC : Char := Char.ofNat 39

/-- Whitespace for Python str.strip (the ASCII whitespace class; the
unicode extension is irrelevant to the program's data). -/
def pyIsSpace (c : Char) : Bool :=
  c = ' ' || c = '\t' || c = '\n' || c = '\x0d' || c = '\x0b' || c = '\x0c'

/-- Python str.strip(): removes leading and trailing whitespace. -/
def pyStrip (s : Str) : Str :=
  ((s.dropWhile pyIsSpace).reverse.dropWhile pyIsSpace).reverse

/-- Python slice s[-n:]: the trailing window of at most n characters. -/
def takeLastN (n : Nat) (s : Str) : Str := s.drop (s.length - n)

/-- Decimal rendering of a natural number (for f-string interpolation). -/
def natStr (n : Nat) : Str := Nat.toDigits 10 n

/-- Decimal rendering of an integer (for f-string interpolation). -/
def intStr : Int → Str
  | Int.ofNat n => natStr n
  | Int.negSucc n => '-' :: natStr (n + 1)

/-- Python str.lower restricted to the ASCII letters actually compared
by the program (language tags and file extensions). -/
def pyLower (s : Str) : Str := s.map Char.toLower

/-! ## Path resolution (WorkspaceExecutor._resolve, lines 80-84)

The sandbox root is modelled as a canonical absolute path: a list of
path segments, none of which is empty, a dot or a dot-dot.  A relative
path argument arrives as raw text and is joined and canonicalized the
way pathlib's `(root / rel).resolve()` does for symlink-free trees:
`/` splits segments, empty and `.` segments vanish, a leading `/`
makes the path absolute (replacing the root, as pathlib join does),
and `..` removes the preceding segment, staying put at the filesystem
root. -/

/-- Split raw path text on the slash character. -/
def splitSlashAux : Str → Str → List Str
  | [], acc => [acc.reverse]
  | c :: r, acc =>
    if c = '/' then acc.reverse :: splitSlashAux r [] else splitSlashAux r (c :: acc)

/-- Path segments of raw path text: split on slashes, dropping empty
segments and single-dot segments exactly as pathlib does on join. -/
def pathSegs (rel : Str) : List Str :=
  (splitSlashAux rel []).filter (fun s => !(s.isEmpty) && !(s == ['.']))

/-- Resolution step: a dot-dot segment removes the last segment of the
base (staying at the filesystem root when the base is empty); any
other segment is appended. -/
def resolveStep (base : List Str) (seg : Str) : List Str :=
  if seg = ['.', '.'] then base.dropLast else base ++ [seg]

/-- Canonical absolute path of root/rel, as `(root / rel).resolve()`
computes it for a symlink-free tree: a relative path is joined onto
the root, an absolute path replaces it, and dot-dots are folded. -/
def pyResolve (root : List Str) (rel : Str) : List Str :=
  let base := if rel.head? = some '/' then [] else root
  (pathSegs rel).foldl resolveStep base

/-- Rendering of a canonical absolute path as text, as `str(Path(...))`
produces it: a leading slash then slash-separated segments. -/
def renderPath (segs : List Str) : Str :=
  '/' :: List.intercalate ['/'] segs

/-- The error message raised for a rejected path (line 83). -/
def escapeMsg (rel : Str) : Str :=
  ("Chemin hors workspace interdit: ").toList ++ rel

/-- WorkspaceExecutor._resolve (lines 80-84): canonicalize root/rel,
then accept iff the rendered canonical result has the rendered
canonical root as a textual prefix (`str(safe).startswith(str(root))`),
returning the canonical path; otherwise a ValueError is raised,
modelled as `none`.  The root is taken to be already canonical. -/
def ws_resolve (root : List Str) (rel : Str) : Option (List Str) :=
  let safe := pyResolve root rel
  if (renderPath root).isPrefixOf (renderPath safe) then some safe else none

/-- Descendant-or-equal in the path hierarchy: the root's segments are
a prefix of the path's segments. -/
def isDescendant (root p : List Str) : Prop := root <+: p

instance (root p : List Str) : Decidable (isDescendant root p) :=
  inferInstanceAs (Decidable (root <+: p))

/-! ## Filesystem and executor operations (WorkspaceExecutor, lines 75-142)

The filesystem visible to the executor is a record of text files
(keyed by canonical absolute path) and directories.  OS-level failure
modes outside the program's control flow (permissions, races,
file/directory clashes on create) are outside the model; the
operations the code performs on its own data are modelled exactly. -/

/-- Filesystem state: text files keyed by canonical absolute path
segments, plus the set of directories. -/
structure FS where
  files : List (List Str × Str)
  dirs : List (List Str)
deriving DecidableEq

/-- The empty filesystem. -/
def FS.empty : FS := ⟨[], []⟩

/-- Overwrite-or-insert a file binding. -/
def setFile : List (List Str × Str) → List Str → Str → List (List Str × Str)
  | [], ap, c => [(ap, c)]
  | (k, v) :: rest, ap, c =>
    if k = ap then (k, c) :: rest else (k, v) :: setFile rest ap c

/-- Look up a file's content by canonical path. -/
def fileLookup : List (List Str × Str) → List Str → Option Str
  | [], _ => none
  | (k, v) :: rest, ap => if k = ap then some v else fileLookup rest ap

/-- WorkspaceExecutor.mkdir (lines 86-89): resolve, then create the
directory and all missing ancestors (mkdir parents=True exist_ok=True);
returns the new state and the resolved path (which the logger reports). -/
def ws_mkdir (root : List Str) (fs : FS) (rel : Str) : Except Str (FS × List Str) :=
  match ws_resolve root rel with
  | none => .error (escapeMsg rel)
  | some ap => .ok ({ fs with dirs := ap.inits ++ fs.dirs }, ap)

/-- WorkspaceExecutor.write_file (lines 91-95): resolve, create parent
directories, then overwrite the file with the content verbatim. -/
def ws_write_file (root : List Str) (fs : FS) (rel c : Str) :
    Except Str (FS × List Str) :=
  match ws_resolve root rel with
  | none => .error (escapeMsg rel)
  | some ap =>
    .ok ({ fs with dirs := ap.dropLast.inits ++ fs.dirs,
                   files := setFile fs.files ap c }, ap)

/-- WorkspaceExecutor.append_file (lines 97-102): resolve, create
parent directories, then append to the file, creating it if absent. -/
def ws_append_file (root : List Str) (fs : FS) (rel c : Str) :
    Except Str (FS × List Str) :=
  match ws_resolve root rel with
  | none => .error (escapeMsg rel)
  | some ap =>
    .ok ({ fs with dirs := ap.dropLast.inits ++ fs.dirs,
                   files := setFile fs.files ap ((fileLookup fs.files ap).getD [] ++ c) },
         ap)

/-- Modelled error text of the IsADirectoryError raised when read_text
hits a directory (the exact OS wording is abstracted). -/
def isDirMsg (ap : List Str) : Str :=
  ("[Errno 21] Is a directory: ").toList ++ renderPath ap

/-- WorkspaceExecutor.read_file (lines 104-111): resolve; a missing
path yields the empty string rather than an error; a directory makes
read_text raise; otherwise the stored text is returned (errors=replace
is the identity on the text the program itself stores). -/
def ws_read_file (root : List Str) (fs : FS) (rel : Str) : Except Str Str :=
  match ws_resolve root rel with
  | none => .error (escapeMsg rel)
  | some ap =>
    match fileLookup fs.files ap with
    | some c => .ok c
    | none => if ap ∈ fs.dirs then .error (isDirMsg ap) else .ok []

/-- Result of one subprocess execution: captured streams and status. -/
structure SubprocResult where
  stdout : Str
  stderr : Str
  returncode : Int
deriving DecidableEq

/-- The process invocation issued by WorkspaceExecutor.run (lines
115-122): the command line, run through the shell, with the sandbox
root as working directory. -/
structure SubprocCall where
  cmdline : Str
  cwd : List Str
  shellMode : Bool
deriving DecidableEq

/-- The call run makes for a command (subprocess.run(command,
shell=True, cwd=self.root, ...)). -/
def runCall (root : List Str) (cmd : Str) : SubprocCall := ⟨cmd, root, true⟩

/-- The text returned by WorkspaceExecutor.run (line 123): the command
line and both captured streams folded together and stripped. -/
def runOutput (cmd : Str) (r : SubprocResult) : Str :=
  pyStrip (("$ ").toList ++ cmd ++ '\n' :: r.stdout ++ '\n' :: r.stderr)

/-- The log line run emits (line 124): the exit status followed by the
first 2000 characters of the combined output. -/
def runLogLine (cmd : Str) (r : SubprocResult) : Str :=
  ("[run:exit=").toList ++ intStr r.returncode ++ ']' :: '\n' :: (runOutput cmd r).take 2000

/-! ## Line counting (WorkspaceExecutor.count_loc, lines 127-142) -/

/-- pathlib suffix of a file name: the part from the last dot, when
that dot is neither the first nor the last character of the name;
otherwise the empty string. -/
def pySuffix (name : Str) : Str :=
  let r := name.reverse
  let k := (r.takeWhile (fun c => !(c == '.'))).length
  if k = r.length then []
  else if k = r.length - 1 then []
  else if k = 0 then []
  else (r.take (k + 1)).reverse

/-- Characters Python str.splitlines treats as line boundaries. -/
def isLineBreak (c : Char) : Bool :=
  c = '\n' || c = '\x0d' || c = '\x0b' || c = '\x0c' ||
  c = '\x1c' || c = '\x1d' || c = '\x1e' || c = '\x85' || c = ' ' || c = ' '

/-- Helper for line counting: the boolean records whether a line is
currently open (a trailing unterminated line still counts). -/
def lineCountAux : Bool → Str → Nat
  | inL, [] => if inL then 1 else 0
  | _, '\x0d' :: '\n' :: rest => 1 + lineCountAux false rest
  | _, c :: rest =>
    if isLineBreak c then 1 + lineCountAux false rest
    else lineCountAux true rest

/-- len(text.splitlines()): number of lines of a text. -/
def pyLineCount (s : Str) : Nat := lineCountAux false s

/-- The extension map (line 128) together with dict.get's fallback
(line 129): unknown language tags fall back to the single Python
extension. -/
def ext_list (langLower : Str) : List Str :=
  if langLower = ("python").toList then [(".py").toList]
  else if langLower = ("cpp").toList then
    [(".cpp").toList, (".hpp").toList, (".h").toList, (".cc").toList, (".cxx").toList]
  else [(".py").toList]

/-- Whether one file entry is counted: it must lie strictly below the
root (rglob enumerates strict descendants) and its name's lowered
suffix must be one of the selected extensions. -/
def locMatch (root : List Str) (exts : List Str) (f : List Str × Str) : Bool :=
  List.isPrefixOf root f.1 && !(f.1 == root) &&
    (match f.1.getLast? with
     | some name => decide (pyLower (pySuffix name) ∈ exts)
     | none => false)

/-- WorkspaceExecutor.count_loc (lines 127-142): lower the language
tag, select the extension set (falling back to .py), and sum the line
counts of every matching file under the root. -/
def count_loc (root : List Str) (language : Str) (fs : FS) : Nat :=
  let exts := ext_list (pyLower language)
  (fs.files.filter (locMatch root exts)).foldl (fun acc f => acc + pyLineCount f.2) 0

/-! ## The JSON plan codec (AutoDevAgent._extract_json, lines 156-160)

The decoded values of Python's json module are embedded as a JSON
value type; number values keep their source token (their numeric
interpretation is never consulted by the program).  The parser below
mirrors the grammar json.loads accepts: the six value forms plus the
NaN/Infinity extensions, strict strings (raw control characters
rejected, the standard escapes and \uXXXX decoded; surrogate-pair
recombination is abstracted into the single code-point constructor),
and no trailing data after the top-level value.  Recursion is bounded
by an ample fuel parameter. -/

inductive Json where
  | null
  | bool (b : Bool)
  | num (tok : Str)
  | str (s : Str)
  | arr (elems : List Json)
  | obj (fields : List (Str × Json))

/-- Whitespace accepted between JSON tokens. -/
def jWs (c : Char) : Bool := c = ' ' || c = '\t' || c = '\n' || c = '\x0d'

/-- Skip inter-token whitespace. -/
def skipWs (s : Str) : Str := s.dropWhile jWs

/-- Value of one hexadecimal digit. -/
def hexVal (c : Char) : Option Nat :=
  if '0' ≤ c ∧ c ≤ '9' then some (c.toNat - 48)
  else if 'a' ≤ c ∧ c ≤ 'f' then some (c.toNat - 87)
  else if 'A' ≤ c ∧ c ≤ 'F' then some (c.toNat - 55)
  else none

/-- Decode one escape sequence after the backslash, returning the
decoded character and the remaining input. -/
def decodeEscape : Char → Str → Option (Char × Str)
  | e, r2 =>
    if e = quoteC then some (quoteC, r2)
    else if e = backslashC then some (backslashC, r2)
    else if e = '/' then some ('/', r2)
    else if e = 'b' then some ('\x08', r2)
    else if e = 'f' then some ('\x0c', r2)
    else if e = 'n' then some ('\n', r2)
    else if e = 'r' then some ('\x0d', r2)
    else if e = 't' then some ('\t', r2)
    else if e = 'u' then
      match r2 with
      | h1 :: h2 :: h3 :: h4 :: r3 =>
        match hexVal h1, hexVal h2, hexVal h3, hexVal h4 with
        | some a, some b, some c, some d =>
          some (Char.ofNat (((a * 16 + b) * 16 + c) * 16 + d), r3)
        | _, _, _, _ => none
      | _ => none
    else none

/-- Parse the body of a quoted string (the opening quote already
consumed): characters until the closing quote, with escapes decoded
and raw control characters rejected (strict mode). -/
def parseStrBody : Nat → Str → Option (Str × Str)
  | 0, _ => none
  | _ + 1, [] => none
  | f + 1, c :: rest =>
    if c = quoteC then some ([], rest)
    else if c = backslashC then
      match rest with
      | [] => none
      | e :: r2 =>
        match decodeEscape e r2 with
        | none => none
        | some (ch, r3) =>
          match parseStrBody f r3 with
          | some (s, rem) => some (ch :: s, rem)
          | none => none
    else if c.toNat < 32 then none
    else
      match parseStrBody f rest with
      | some (s, rem) => some (c :: s, rem)
      | none => none

/-- ASCII digit test. -/
def isDigitC (c : Char) : Bool := '0' ≤ c && c ≤ '9'

/-- Parse a number token following json's NUMBER_RE: an optional
minus, an integer part (a lone zero or a nonzero-led digit run), an
optional fraction and an optional exponent; the token text is kept. -/
def parseNum (s : Str) : Option (Str × Str) :=
  let (sign, s1) : Str × Str :=
    match s with
    | '-' :: r => (['-'], r)
    | _ => ([], s)
  match s1 with
  | [] => none
  | c :: _ =>
    if !(isDigitC c) then none
    else
      let intPart := if c = '0' then ['0'] else s1.takeWhile isDigitC
      let r1 := s1.drop intPart.length
      let (frac, r2) : Str × Str :=
        match r1 with
        | '.' :: d :: r =>
          if isDigitC d then
            let ds := (d :: r).takeWhile isDigitC
            ('.' :: ds, (d :: r).drop ds.length)
          else ([], r1)
        | _ => ([], r1)
      let (expPart, r3) : Str × Str :=
        match r2 with
        | e :: sg :: rr =>
          if e = 'e' || e = 'E' then
            if isDigitC sg then
              let ds := (sg :: rr).takeWhile isDigitC
              (e :: ds, (sg :: rr).drop ds.length)
            else if sg = '+' || sg = '-' then
              match rr with
              | d :: _ =>
                if isDigitC d then
                  let ds := rr.takeWhile isDigitC
                  (e :: sg :: ds, rr.drop ds.length)
                else ([], r2)
              | [] => ([], r2)
            else ([], r2)
          else ([], r2)
        | _ => ([], r2)
      some (sign ++ intPart ++ frac ++ expPart, r3)

mutual

/-- Parse one JSON value at the head of the input. -/
def parseValue : Nat → Str → Option (Json × Str)
  | 0, _ => none
  | f + 1, s =>
    match s with
    | [] => none
    | c :: rest =>
      if c = quoteC then
        match parseStrBody (rest.length + 1) rest with
        | some (t, rem) => some (.str t, rem)
        | none => none
      else if c = lbrace then parseObjBody f (skipWs rest) []
      else if c = '[' then parseArrBody f (skipWs rest) []
      else if c = 't' then
        if List.isPrefixOf (("true").toList) s then some (.bool true, s.drop 4) else none
      else if c = 'f' then
        if List.isPrefixOf (("false").toList) s then some (.bool false, s.drop 5) else none
      else if c = 'n' then
        if List.isPrefixOf (("null").toList) s then some (.null, s.drop 4) else none
      else if c = 'N' then
        if List.isPrefixOf (("NaN").toList) s then some (.num (("NaN").toList), s.drop 3) else none
      else if c = 'I' then
        if List.isPrefixOf (("Infinity").toList) s then
          some (.num (("Infinity").toList), s.drop 8) else none
      else if c = '-' || isDigitC c then
        match parseNum s with
        | some (tok, rem) => some (.num tok, rem)
        | none =>
          if List.isPrefixOf (("-Infinity").toList) s then
            some (.num (("-Infinity").toList), s.drop 9) else none
      else none

/-- Parse array items after the opening bracket (whitespace already
skipped), accumulating parsed elements. -/
def parseArrBody : Nat → Str → List Json → Option (Json × Str)
  | 0, _, _ => none
  | f + 1, s, acc =>
    match s with
    | [] => none
    | c :: rest =>
      if acc.isEmpty && c = ']' then some (.arr [], rest)
      else
        match parseValue f s with
        | none => none
        | some (v, rem) =>
          match skipWs rem with
          | ',' :: rem2 => parseArrBody f (skipWs rem2) (acc ++ [v])
          | cc :: rem2 => if cc = ']' then some (.arr (acc ++ [v]), rem2) else none
          | [] => none

/-- Parse object members after the opening brace (whitespace already
skipped), accumulating key/value pairs in order; duplicate keys are
kept here and resolved to the last occurrence on lookup, matching
dict construction. -/
def parseObjBody : Nat → Str → List (Str × Json) → Option (Json × Str)
  | 0, _, _ => none
  | f + 1, s, acc =>
    match s with
    | [] => none
    | c :: rest =>
      if acc.isEmpty && c = rbrace then some (.obj [], rest)
      else if c = quoteC then
        match parseStrBody (rest.length + 1) rest with
        | none => none
        | some (key, rem) =>
          match skipWs rem with
          | ':' :: rem2 =>
            match parseValue f (skipWs rem2) with
            | none => none
            | some (v, rem3) =>
              match skipWs rem3 with
              | ',' :: rem4 =>
                match skipWs rem4 with
                | cc :: rem5 =>
                  if cc = quoteC then parseObjBody f (cc :: rem5) (acc ++ [(key, v)])
                  else none
                | [] => none
              | cc :: rem4 => if cc = rbrace then some (.obj (acc ++ [(key, v)]), rem4) else none
              | [] => none
          | _ => none
      else none

end

/-- json.loads: parse one value with ample fuel and require that only
whitespace follows it (extra data is an error). -/
def json_loads (s : Str) : Option Json :=
  match parseValue (4 * s.length + 16) (skipWs s) with
  | some (v, rem) => if (skipWs rem).isEmpty then some v else none
  | none => none

/-- The tail of the input up to and including its last closing brace. -/
def upToLastClose (s : Str) : Str :=
  (s.reverse.dropWhile (fun c => !(c == rbrace))).reverse

/-- The substring matched by re.search of the dotall pattern brace,
any characters, brace: from the first opening brace that has a closing
brace somewhere after it, to the last closing brace of the text;
absence of such a pair is no match. -/
def extractSpan : Str → Option Str
  | [] => none
  | c :: rest =>
    if c = lbrace ∧ rbrace ∈ rest then some (c :: upToLastClose rest)
    else extractSpan rest

/-- The two failure modes of the codec: no brace-delimited span in the
text (the ValueError of line 159), and a span json.loads rejects (its
JSONDecodeError). -/
inductive ExtractErr where
  | noJson
  | malformed
deriving DecidableEq

/-- AutoDevAgent._extract_json (lines 156-160): locate the regex span
and parse it. -/
def extract_json (raw : Str) : Except ExtractErr Json :=
  match extractSpan raw with
  | none => .error .noJson
  | some span =>
    match json_loads span with
    | some v => .ok v
    | none => .error .malformed

/-! ## Plan field access and Python value rendering

dict.get with the json module's duplicate-key behaviour (the last
occurrence of a key wins), and the str() rendering used when values
are interpolated into f-strings (container formatting is an
approximation of Python repr; the program only ever embeds these
renderings into log lines and prompt history). -/

/-- dict.get on decoded object fields: the last binding of a key wins,
as dict construction from parsed pairs overwrites earlier keys. -/
def getField : List (Str × Json) → Str → Option Json
  | [], _ => none
  | (k, v) :: rest, key =>
    match getField rest key with
    | some r => some r
    | none => if k = key then some v else none

/-- plan.get lifted to a decoded value; the regex span guarantees the
decoded plan is an object at runtime, other shapes yield no field. -/
def planGet : Json → Str → Option Json
  | .obj kvs, key => getField kvs key
  | _, _ => none

mutual

/-- Python str() of a decoded value (True/False/None spelling for the
scalars; container formatting approximates repr, which the program
only embeds into log and history text). -/
def pyStr : Json → Str
  | .null => ("None").toList
  | .bool true => ("True").toList
  | .bool false => ("False").toList
  | .num t => t
  | .str s => s
  | .arr l => '[' :: (pyStrList l ++ [']'])
  | .obj kvs => lbrace :: (pyStrFields kvs ++ [rbrace])

/-- Comma-joined renderings of array elements. -/
def pyStrList : List Json → Str
  | [] => []
  | [x] => pyStr x
  | x :: y :: r => pyStr x ++ (", ").toList ++ pyStrList (y :: r)

/-- Comma-joined renderings of object members. -/
def pyStrFields : List (Str × Json) → Str
  | [] => []
  | [kv] => aposC :: (kv.1 ++ aposC :: (": ").toList ++ pyStr kv.2)
  | kv :: kv2 :: r =>
    aposC :: (kv.1 ++ aposC :: (": ").toList ++ pyStr kv.2) ++ (", ").toList ++
      pyStrFields (kv2 :: r)

end

/-- Python iteration over the value in the actions slot: a list yields
its elements; a string yields its one-character strings; a dict yields
its keys (as strings); numbers, booleans and None are not iterable and
make len() raise an uncaught TypeError. -/
def iterElems : Json → Option (List Json)
  | .arr l => some l
  | .str s => some (s.map (fun c => Json.str [c]))
  | .obj kvs => some (kvs.map (fun kv => Json.str kv.1))
  | _ => none

/-- Python equality of a decoded value against a string literal: true
exactly for the equal string. -/
def isTypeStr : Json → Str → Bool
  | .str s, lit => s == lit
  | _, _ => false

/-! ## The agent loop (AutoDevAgent, lines 145-240)

The loop environment carries the run configuration together with the
external collaborators: the model provider (a function from prompt
text to response text), the shell (a function from command and
filesystem to a subprocess result and successor filesystem), and the
stop flag, modelled as the schedule of values the successive polls of
`stop_requested` observe (the k-th poll reads `stop k`).  The runner
returns the exit condition (the spec's state-machine states plus the
fatal exit of an uncaught exception), the final loop state, the list
of model invocations and the list of executor operations. -/

structure Env where
  root : List Str
  language : Str
  description : Str
  max_iterations : Nat
  target_loc : Nat
  llm : Str → Str
  shell : Str → FS → SubprocResult × FS
  stop : Nat → Bool

/-- Mutable loop state: the filesystem, the running history, the
previous iteration's aggregated output, and the poll counter. -/
structure LoopSt where
  fs : FS
  history : Str
  last_output : Str
  polls : Nat
deriving DecidableEq

/-- Advance the poll counter by one observation of the stop flag. -/
def bump (st : LoopSt) : LoopSt := { st with polls := st.polls + 1 }

/-- How a run ends: the spec's StoppedByUser / StoppedByPlan /
Exhausted states, plus the fatal exit of an exception that escapes
run_cycle (caught only by the surrounding thread wrapper). -/
inductive Exit where
  | stoppedByUser
  | stoppedByPlan
  | exhausted
  | fatal
deriving DecidableEq

/-- Executor operations actually performed, for trace inspection. -/
inductive Op where
  | mkdirO (ap : List Str)
  | writeO (ap : List Str) (c : Str)
  | appendO (ap : List Str) (c : Str)
  | readO (rel : Str)
  | runO (cmd : Str)
  | doneO (reason : Str)
deriving DecidableEq

/-- Result of a whole run: exit condition, final state, the model
invocations (iteration index, prompt, raw response) and the executor
operations, in order. -/
structure RunOut where
  exit : Exit
  st : LoopSt
  calls : List (Nat × Str × Str)
  ops : List Op
deriving DecidableEq

/-- Outcome of dispatching one action: nothing appended, an output (or
caught-error text) appended to the iteration output, or the done
action's early return. -/
inductive DispRes where
  | dnone
  | dout (o : Str)
  | ddone (reason : Str)
deriving DecidableEq

/-- Outcome of the inner action loop: ran to completion, broke on the
stop flag, returned on a done action, or an uncaught exception. -/
inductive ActRes where
  | completed (outs : List Str)
  | stopBreak (outs : List Str)
  | doneHit (reason : Str)
  | fatalHit
deriving DecidableEq

/-- str() of a KeyError: the missing key in quotes. -/
def keyErrStr (k : Str) : Str := aposC :: (k ++ [aposC])

/-- Modelled text of the TypeError raised when a non-string path
reaches the Path join in resolve. -/
def typeErrPath : Str :=
  ("unsupported path type for Path join").toList

/-- Modelled text of the TypeError raised when write_text or the
append write receives non-string content. -/
def typeErrContent : Str :=
  ("write() argument must be str").toList

/-- Modelled text of the TypeError raised by subprocess.run when the
shell command is not a string. -/
def typeErrCmd : Str :=
  ("command must be str when shell=True").toList

/-- The per-action caught-exception text (line 236). -/
def actionFail (t msg : Str) : Str :=
  ("Action ").toList ++ t ++ (" échouée: ").toList ++ msg

/-- The mkdir action branch (lines 217-218): path required (KeyError
caught), resolve failure caught, success mutates the filesystem. -/
def doMkdir (env : Env) (fields : List (Str × Json)) (st : LoopSt) :
    DispRes × LoopSt × List Op :=
  match getField fields (("path").toList) with
  | some (.str p) =>
    match ws_mkdir env.root st.fs p with
    | .error m => (.dout (actionFail (("mkdir").toList) m), st, [])
    | .ok (fs2, ap) => (.dnone, { st with fs := fs2 }, [.mkdirO ap])
  | some _ => (.dout (actionFail (("mkdir").toList) typeErrPath), st, [])
  | none => (.dout (actionFail (("mkdir").toList) (keyErrStr (("path").toList))), st, [])

/-- The write_file action branch (lines 219-220): path required,
content defaults to the empty string, non-string content raises inside
the try and is caught. -/
def doWrite (env : Env) (fields : List (Str × Json)) (st : LoopSt) :
    DispRes × LoopSt × List Op :=
  match getField fields (("path").toList) with
  | some (.str p) =>
    match (getField fields (("content").toList)).getD (.str []) with
    | .str c =>
      match ws_write_file env.root st.fs p c with
      | .error m => (.dout (actionFail (("write_file").toList) m), st, [])
      | .ok (fs2, ap) => (.dnone, { st with fs := fs2 }, [.writeO ap c])
    | _ => (.dout (actionFail (("write_file").toList) typeErrContent), st, [])
  | some _ => (.dout (actionFail (("write_file").toList) typeErrPath), st, [])
  | none =>
    (.dout (actionFail (("write_file").toList) (keyErrStr (("path").toList))), st, [])

/-- The append_file action branch (lines 221-222). -/
def doAppend (env : Env) (fields : List (Str × Json)) (st : LoopSt) :
    DispRes × LoopSt × List Op :=
  match getField fields (("path").toList) with
  | some (.str p) =>
    match (getField fields (("content").toList)).getD (.str []) with
    | .str c =>
      match ws_append_file env.root st.fs p c with
      | .error m => (.dout (actionFail (("append_file").toList) m), st, [])
      | .ok (fs2, ap) => (.dnone, { st with fs := fs2 }, [.appendO ap c])
    | _ => (.dout (actionFail (("append_file").toList) typeErrContent), st, [])
  | some _ => (.dout (actionFail (("append_file").toList) typeErrPath), st, [])
  | none =>
    (.dout (actionFail (("append_file").toList) (keyErrStr (("path").toList))), st, [])

/-- The read_file action branch (lines 223-225): the read content,
truncated to 5000 characters, is appended to the iteration output
under a READ header naming the relative path. -/
def doRead (env : Env) (fields : List (Str × Json)) (st : LoopSt) :
    DispRes × LoopSt × List Op :=
  match getField fields (("path").toList) with
  | some (.str p) =>
    match ws_read_file env.root st.fs p with
    | .error m => (.dout (actionFail (("read_file").toList) m), st, [])
    | .ok content =>
      (.dout (("READ<").toList ++ p ++ '>' :: '\n' :: content.take 5000), st, [.readO p])
  | some _ => (.dout (actionFail (("read_file").toList) typeErrPath), st, [])
  | none =>
    (.dout (actionFail (("read_file").toList) (keyErrStr (("path").toList))), st, [])

/-- The run action branch (lines 226-228): the shell executes the
command against the current filesystem; the combined output is
appended to the iteration output.  A non-string command value is
modelled as the caught TypeError of subprocess.run (the exotic
list-shaped corner of a POSIX shell invocation is outside the model). -/
def doRun (env : Env) (fields : List (Str × Json)) (st : LoopSt) :
    DispRes × LoopSt × List Op :=
  match getField fields (("cmd").toList) with
  | some (.str c) =>
    match env.shell c st.fs with
    | (res, fs2) => (.dout (runOutput c res), { st with fs := fs2 }, [.runO c])
  | some _ => (.dout (actionFail (("run").toList) typeErrCmd), st, [])
  | none => (.dout (actionFail (("run").toList) (keyErrStr (("cmd").toList))), st, [])

/-- Dispatch of one action dict (lines 215-238): the type tag defaults
to the empty string and is compared against the six known tags in
source order; an unknown tag is logged and ignored; the done tag
returns from run_cycle with its reason. -/
def dispatch (env : Env) (fields : List (Str × Json)) (st : LoopSt) :
    DispRes × LoopSt × List Op :=
  let a_type := (getField fields (("type").toList)).getD (.str [])
  if isTypeStr a_type (("mkdir").toList) then doMkdir env fields st
  else if isTypeStr a_type (("write_file").toList) then doWrite env fields st
  else if isTypeStr a_type (("append_file").toList) then doAppend env fields st
  else if isTypeStr a_type (("read_file").toList) then doRead env fields st
  else if isTypeStr a_type (("run").toList) then doRun env fields st
  else if isTypeStr a_type (("done").toList) then
    let reason := pyStr ((getField fields (("reason").toList)).getD
      (.str (("Terminé.").toList)))
    (.ddone reason, st, [.doneO reason])
  else (.dnone, st, [])

/-- The inner action loop (lines 212-238): each element is preceded by
a poll of the stop flag (a set flag breaks out of the actions); a
non-dict element raises an uncaught AttributeError at the type access,
which is outside the per-action try and therefore fatal; dispatched
outputs accumulate into the iteration output. -/
def execActions (env : Env) : List Json → LoopSt → List Str → ActRes × LoopSt × List Op
  | [], st, outs => (.completed outs, st, [])
  | a :: rest, st, outs =>
    if env.stop st.polls then (.stopBreak outs, bump st, [])
    else
      let st1 := bump st
      match a with
      | .obj fields =>
        match dispatch env fields st1 with
        | (.ddone reason, st2, ops) => (.doneHit reason, st2, ops)
        | (.dnone, st2, ops) =>
          match execActions env rest st2 outs with
          | (res, st3, ops2) => (res, st3, ops ++ ops2)
        | (.dout o, st2, ops) =>
          match execActions env rest st2 (outs ++ [o]) with
          | (res, st3, ops2) => (res, st3, ops ++ ops2)
      | _ => (.fatalHit, st1, [])

/-- The operating instructions prepended to every prompt (lines 15-34,
already stripped as the source strips the literal). -/
def SYSTEM_PROMPT : Str :=
  ("Tu es un ingénieur logiciel local. Tu dois produire un plan puis des actions JSON.\n").toList ++
  ("Format attendu strictement:\n\x7b\n  \"summary\": \"...\",\n  \"actions\": [\n").toList ++
  ("    \x7b\"type\": \"mkdir\", \"path\": \"...\"\x7d,\n").toList ++
  ("    \x7b\"type\": \"write_file\", \"path\": \"...\", \"content\": \"...\"\x7d,\n").toList ++
  ("    \x7b\"type\": \"append_file\", \"path\": \"...\", \"content\": \"...\"\x7d,\n").toList ++
  ("    \x7b\"type\": \"read_file\", \"path\": \"...\"\x7d,\n").toList ++
  ("    \x7b\"type\": \"run\", \"cmd\": \"...\"\x7d,\n").toList ++
  ("    \x7b\"type\": \"done\", \"reason\": \"...\"\x7d\n  ]\n\x7d\n").toList ++
  ("Contraintes:\n- Toutes les actions sont locales.\n").toList ++
  ("- Ne jamais utiliser d\x27API distante.\n").toList ++
  ("- Privilégier CMake pour C++ et pytest/unittest pour Python.\n").toList ++
  ("- Corriger les erreurs de build/test dans les itérations suivantes.").toList

/-- AutoDevAgent._build_prompt (lines 162-179): the f-string template
with the bounded trailing windows of history and last output, stripped
like the source template. -/
def build_prompt (env : Env) (iteration : Nat) (history last_output : Str) : Str :=
  pyStrip (
    ('\n' :: SYSTEM_PROMPT) ++
    ("\n\nIteration: ").toList ++ natStr iteration ++ ('/' :: natStr env.max_iterations) ++
    ("\nLangage cible: ").toList ++ env.language ++
    ("\nObjectif LOC approximatif: ").toList ++ natStr env.target_loc ++
    ("\nDescription utilisateur:\n").toList ++ env.description ++
    ("\n\nHistorique résumé:\n").toList ++ takeLastN 5000 history ++
    ("\n\nDernière sortie build/test:\n").toList ++ takeLastN 4000 last_output ++
    ("\n\nRenvoie UNIQUEMENT le JSON.\n").toList)

/-- str(exc) for the two decode failures recorded into last_output
(line 203): the ValueError text of line 159 is exact; the text of
the json module's JSONDecodeError is modelled with its position
details abstracted. -/
def excStr : ExtractErr → Str
  | .noJson => ("Réponse LLM sans JSON exploitable.").toList
  | .malformed => ("Expecting value: line 1 column 1 (char 0)").toList

/-- The placeholder summary for plans without one (line 206). -/
def placeholderSummary : Str := ("(sans résumé)").toList

/-- The history line appended per decoded plan (line 209). -/
def iterLine (i : Nat) (summary : Json) : Str :=
  ("\nIteration ").toList ++ natStr i ++ (": ").toList ++ pyStr summary

/-- The aggregation of one iteration's outputs (line 240). -/
def joinOuts (outs : List Str) : Str := List.intercalate (("\n\n").toList) outs

/-- One iteration of the loop body (lines 184-240), with the
continuation k running the remaining iterations: poll the stop flag
(a set flag ends the run as StoppedByUser); compute the advisory line
count (logged only, lines 189-193 — reaching the target does not
alter control flow); build the prompt and invoke the provider; on
decode failure record the failure text as last_output and continue;
otherwise take the summary (placeholder when missing) and iterate the
actions value — a non-iterable value makes the len() in the plan log
line raise, fatally, before the history append — then append the
summary line to history, run the inner action loop, and either return (done), die (fatal), or aggregate the
outputs into last_output and continue. -/
def iterStep (env : Env) (i : Nat) (st : LoopSt) (k : LoopSt → RunOut) : RunOut :=
  if env.stop st.polls then ⟨.stoppedByUser, bump st, [], []⟩
  else
    let st1 := bump st
    let _loc := count_loc env.root env.language st1.fs
    let prompt := build_prompt env i st1.history st1.last_output
    let raw := env.llm prompt
    match extract_json raw with
    | .error e =>
      let out := k { st1 with last_output := excStr e }
      ⟨out.exit, out.st, (i, prompt, raw) :: out.calls, out.ops⟩
    | .ok plan =>
      let summary := (planGet plan (("summary").toList)).getD (.str placeholderSummary)
      match iterElems ((planGet plan (("actions").toList)).getD (.arr [])) with
      | none => ⟨.fatal, st1, [(i, prompt, raw)], []⟩
      | some elems =>
        let st2 := { st1 with history := st1.history ++ iterLine i summary }
        match execActions env elems st2 [] with
        | (.doneHit _, st3, ops) => ⟨.stoppedByPlan, st3, [(i, prompt, raw)], ops⟩
        | (.fatalHit, st3, ops) => ⟨.fatal, st3, [(i, prompt, raw)], ops⟩
        | (.completed outs, st3, ops) =>
          let out := k { st3 with last_output := joinOuts outs }
          ⟨out.exit, out.st, (i, prompt, raw) :: out.calls, ops ++ out.ops⟩
        | (.stopBreak outs, st3, ops) =>
          let out := k { st3 with last_output := joinOuts outs }
          ⟨out.exit, out.st, (i, prompt, raw) :: out.calls, ops ++ out.ops⟩

/-- AutoDevAgent.run_cycle from iteration i with the given number of
iterations remaining: the for-loop over range(1, max_iterations + 1),
ending as Exhausted when the budget runs out. -/
def runFrom (env : Env) (i : Nat) : Nat → LoopSt → RunOut
  | 0, st => ⟨.exhausted, st, [], []⟩
  | r + 1, st => iterStep env i st (fun st2 => runFrom env (i + 1) r st2)

/-- AutoDevAgent.run_cycle (lines 181-240) started on a filesystem:
empty history and last output, iterations 1 through max_iterations. -/
def run_cycle (env : Env) (fs0 : FS) : RunOut :=
  runFrom env 1 env.max_iterations ⟨fs0, [], [], 0⟩

/-- Whether a type field does not select the done action: any absent
field, non-string value or other tag dispatches without returning. -/
def notDoneField : Option Json → Bool
  | some (.str s) => !(s == ("done").toList)
  | _ => true

/-- A well-formed non-terminating action: a dict whose type tag is not
done (any other tag, including unknown ones, lets the loop proceed). -/
def isGoodActB : Json → Bool
  | .obj kvs => notDoneField (getField kvs (("type").toList))
  | _ => false

/-- A provider response after which the loop keeps running: either it
fails to decode, or it decodes to a plan whose actions slot holds a
sequence of well-formed non-terminating actions (absent actions give
the empty sequence). -/
def goodRespB (raw : Str) : Bool :=
  match extract_json raw with
  | .error _ => true
  | .ok p =>
    match (planGet p (("actions").toList)).getD (.arr []) with
    | .arr l => l.all isGoodActB
    | _ => false

/-- Initial loop state on an empty filesystem. -/
def st0 : LoopSt := ⟨FS.empty, [], [], 0⟩

/-- A concrete environment for witnesses and counterexamples: a
constant provider response, a stop schedule, an iteration budget, a
shell that returns empty streams and status zero. -/
def mkEnv (resp : Str) (stopSched : Nat → Bool) (n : Nat) : Env :=
  { root := [("tmp").toList, ("ws").toList]
    language := ("python").toList
    description := ("demo").toList
    max_iterations := n
    target_loc := 100
    llm := fun _ => resp
    shell := fun _ fs => (⟨[], [], 0⟩, fs)
    stop := stopSched }

/-- Environment whose provider always emits a plan that terminates
first and then asks for a run: used against C5. -/
def envC5 : Env :=
  mkEnv (("\x7b\"summary\": \"x\", \"actions\": [\x7b\"type\": \"done\", \"reason\": \"ok\"\x7d, \x7b\"type\": \"run\", \"cmd\": \"make\"\x7d]\x7d").toList)
    (fun _ => false) 3

/-- Environment whose provider always answers with a decodable plan
carrying a non-sequence actions value: used against C3 and C7. -/
def envC7X : Env :=
  mkEnv (("\x7b\"actions\": 5\x7d").toList) (fun _ => false) 3

/-- Environment with a non-sequence actions value of a different
shape, on a two-iteration budget: used against C3. -/
def envC3X : Env :=
  mkEnv (("\x7b\"actions\": null\x7d").toList) (fun _ => false) 2

/-- The done action dict used in concrete C5 instances. -/
def doneKvs : List (Str × Json) :=
  [((("type").toList), .str (("done").toList)), ((("reason").toList), .str (("ok").toList))]

/-- The run action following the done action in concrete C5 instances. -/
def runAct : Json :=
  .obj [((("type").toList), .str (("run").toList)), ((("cmd").toList), .str (("make").toList))]

/-! ## Theorems settling the claims, with their supporting lemmas -/

/-- C1: the resolve operation does NOT fail on every path that
canonically resolves outside the sandbox root.  With root /tmp/ws, the
relative path ../ws2/secret canonically resolves to /tmp/ws2/secret,
which is not a descendant of the root, yet the textual startswith
check accepts it and returns the escaped path; a genuine descendant
is accepted as well, as the claim states. -/
theorem thmC1_resolve_accepts_escape :
    ws_resolve [("tmp").toList, ("ws").toList] (("../ws2/secret").toList) =
      some [("tmp").toList, ("ws2").toList, ("secret").toList] ∧
    ¬ isDescendant [("tmp").toList, ("ws").toList]
        [("tmp").toList, ("ws2").toList, ("secret").toList] ∧
    ws_resolve [("tmp").toList, ("ws").toList] (("src/main.py").toList) =
      some [("tmp").toList, ("ws").toList, ("src").toList, ("main.py").toList] := by
  refine ⟨by decide, by decide, by decide⟩

/-- C9: writing a file and reading it back through the executor
returns exactly the written content, for every in-sandbox relative
path, every prior filesystem state (overwriting an existing file
included) and every text including the empty one; and reading a path
that does not exist (no file stored there and no directory, so that
read_text is not reached) returns the empty string without raising. -/
theorem thmC9_roundtrip (root : List Str) (fs : FS) (p c : Str) (ap : List Str)
    (hres : ws_resolve root p = some ap) :
    ((ws_write_file root fs p c).bind fun r => ws_read_file root r.1 p) = .ok c ∧
    (fileLookup fs.files ap = none → ap ∉ fs.dirs →
      ws_read_file root fs p = .ok []) := by
  have lookup_set : ∀ (l : List (List Str × Str)), fileLookup (setFile l ap c) ap = some c := by
    intro l
    induction l with
    | nil => simp [setFile, fileLookup]
    | cons kv rest ih =>
      by_cases h : kv.1 = ap
      · simp [setFile, fileLookup, h]
      · simp [setFile, fileLookup, h, ih]
  constructor
  · simp only [ws_write_file, hres, Except.bind, ws_read_file, lookup_set]
  · intro hfile hdir
    simp only [ws_read_file, hres, hfile]
    simp [hdir]

/-- C9 witness: a concrete round-trip inside root /tmp/ws that
overwrites a file already holding different content, and a read of a
path absent from the empty filesystem. -/
theorem thmC9_roundtrip_witness :
    ((ws_write_file [("tmp").toList, ("ws").toList]
        ⟨[([("tmp").toList, ("ws").toList, ("src").toList, ("a.txt").toList],
           ("old").toList)], []⟩
        (("src/a.txt").toList) (("hello").toList)).bind fun r =>
          ws_read_file [("tmp").toList, ("ws").toList] r.1 (("src/a.txt").toList)) =
      .ok (("hello").toList) ∧
    ws_read_file [("tmp").toList, ("ws").toList] FS.empty (("src/a.txt").toList) = .ok [] :=
  ⟨(thmC9_roundtrip [("tmp").toList, ("ws").toList]
      ⟨[([("tmp").toList, ("ws").toList, ("src").toList, ("a.txt").toList],
         ("old").toList)], []⟩
      (("src/a.txt").toList) (("hello").toList)
      [("tmp").toList, ("ws").toList, ("src").toList, ("a.txt").toList]
      (by decide)).1,
   (thmC9_roundtrip [("tmp").toList, ("ws").toList] FS.empty
      (("src/a.txt").toList) (("hello").toList)
      [("tmp").toList, ("ws").toList, ("src").toList, ("a.txt").toList]
      (by decide)).2 rfl (by decide)⟩

/-- C4 counterexample: two executions of the same command whose exit
statuses differ (0 versus 1) but whose captured streams agree produce
the identical returned text, so the exit status is not folded into the
text run returns. -/
theorem thmC4_run_counterexample :
    runOutput (("ls").toList) ⟨("files\n").toList, [], 0⟩ =
      runOutput (("ls").toList) ⟨("files\n").toList, [], 1⟩ := rfl

/-- C4 amended: run executes the command with the sandbox root as
working directory and never raises on non-zero exit; the returned text
folds the command line and the captured stdout and stderr but is
independent of the exit status, which appears only in the emitted log
line. -/
theorem thmC4_run_amended :
    (∀ (root : List Str) (cmd : Str), (runCall root cmd).cwd = root ∧
        (runCall root cmd).cmdline = cmd ∧ (runCall root cmd).shellMode = true) ∧
    (∀ (cmd out err : Str) (rc rc' : Int),
        runOutput cmd ⟨out, err, rc⟩ = runOutput cmd ⟨out, err, rc'⟩) ∧
    (∀ (cmd : Str) (r : SubprocResult),
        runOutput cmd r =
          pyStrip (("$ ").toList ++ cmd ++ '\n' :: r.stdout ++ '\n' :: r.stderr) ∧
        intStr r.returncode <:+: runLogLine cmd r) := by
  refine ⟨fun root cmd => ⟨rfl, rfl, rfl⟩, fun cmd out err rc rc' => rfl, fun cmd r => ⟨rfl, ?_⟩⟩
  exact ⟨("[run:exit=").toList, ']' :: '\n' :: (runOutput cmd r).take 2000, rfl⟩

/-- C10: a language tag other than python and cpp (case-insensitively)
makes count_loc silently count exactly what the python tag counts
(only .py files); and the suffix comparison is itself
case-insensitive, so a file named with an upper-case .PY extension is
counted under such a fallback tag. -/
theorem thmC10_count_loc_fallback (lang : Str)
    (h1 : pyLower lang ≠ ("python").toList) (h2 : pyLower lang ≠ ("cpp").toList) :
    (∀ (root : List Str) (fs : FS),
        count_loc root lang fs = count_loc root (("python").toList) fs) ∧
    (∀ (root : List Str) (name : Str) (c : Str),
        pyLower (pySuffix name) = (".py").toList →
        count_loc root lang ⟨[(root ++ [name], c)], []⟩ = pyLineCount c) := by
  have hext : ext_list (pyLower lang) = [(".py").toList] := by
    simp only [ext_list, if_neg h1, if_neg h2]
  have hpy : ext_list (pyLower (("python").toList)) = [(".py").toList] := rfl
  constructor
  · intro root fs
    simp only [count_loc, hext, hpy]
  · intro root name c hsuf
    have hmatch : locMatch root [(".py").toList] (root ++ [name], c) = true := by
      simp only [locMatch, List.getLast?_concat, hsuf]
      simp [List.isPrefixOf_iff_prefix]
    simp only [count_loc, hext, List.filter, hmatch]
    simp [List.filter]

/-- C10 witness: under the unconfigured tag java, counting equals the
python fallback, and a file named report.PY is counted there. -/
theorem thmC10_count_loc_fallback_witness :
    (∀ (root : List Str) (fs : FS),
        count_loc root (("java").toList) fs = count_loc root (("python").toList) fs) ∧
    (∀ (root : List Str) (c : Str),
        count_loc root (("java").toList) ⟨[(root ++ [("report.PY").toList], c)], []⟩ =
          pyLineCount c) := by
  have h := thmC10_count_loc_fallback (("java").toList) (by decide) (by decide)
  exact ⟨h.1, fun root c => h.2 root (("report.PY").toList) c (by decide)⟩

/-- Dropping over an appended list skips a left part all of whose
elements satisfy the predicate. -/
theorem dropWhileAppendAll (p : Char → Bool) (xs ys : Str) (h : ∀ c ∈ xs, p c = true) :
    (xs ++ ys).dropWhile p = ys.dropWhile p := by
  induction xs with
  | nil => rfl
  | cons c r ih =>
    simp only [List.cons_append, List.dropWhile_cons, h c (by simp)]
    exact ih (fun d hd => h d (by simp [hd]))

/-- Cutting at the last closing brace of an appended text whose right
part is brace-free and whose left part ends with a closing brace
returns the left part. -/
theorem upToLastCloseAppend (mid suf : Str) (hsuf : rbrace ∉ suf)
    (hmid : mid.getLast? = some rbrace) : upToLastClose (mid ++ suf) = mid := by
  unfold upToLastClose
  rw [List.reverse_append]
  rw [dropWhileAppendAll _ suf.reverse mid.reverse ?hall]
  case hall =>
    intro c hc
    simp only [List.mem_reverse] at hc
    simp only [Bool.not_eq_true']
    exact beq_eq_false_iff_ne.mpr (fun he => hsuf (he ▸ hc))
  cases hmr : mid.reverse with
  | nil =>
    have : mid = [] := by simpa using congrArg List.reverse hmr
    rw [this] at hmid; simp at hmid
  | cons a t =>
    have ha : a = rbrace := by
      have hh := List.head?_reverse mid
      rw [hmr, hmid] at hh
      simpa using hh
    subst ha
    rw [List.dropWhile_cons]
    simp only [beq_self_eq_true, Bool.not_true, Bool.false_eq_true, if_false]
    rw [← hmr, List.reverse_reverse]

/-- The span search skips any leading text without an opening brace. -/
theorem extractSpanAppend (pre rest : Str) (h : lbrace ∉ pre) :
    extractSpan (pre ++ rest) = extractSpan rest := by
  induction pre with
  | nil => rfl
  | cons c pr ih =>
    rw [List.mem_cons, not_or] at h
    obtain ⟨h1, h2⟩ := h
    simp only [List.cons_append, extractSpan]
    rw [if_neg (fun hand => h1 hand.1.symm)]
    exact ih h2

/-- A text with no closing brace after any opening brace has no span. -/
theorem extractSpanNone (raw : Str)
    (h : ∀ xs ys, raw = xs ++ lbrace :: ys → rbrace ∉ ys) :
    extractSpan raw = none := by
  induction raw with
  | nil => rfl
  | cons c rest ih =>
    simp only [extractSpan]
    rw [if_neg ?hneg]
    · exact ih (fun xs ys hxy => h (c :: xs) ys (by rw [hxy]; rfl))
    case hneg =>
      rintro ⟨hc, hmem⟩
      exact h [] rest (by simp [hc]) hmem

/-- C2 amended: the codec takes the span from the first opening brace
that has a closing brace after it to the LAST closing brace of the
whole text (a greedy match, not the first balanced object) and parses
that span.  A text with no opening brace followed by a closing brace
fails with the no-plan error; and when the text is an embedded JSON
object surrounded by prose whose prefix has no opening brace and
whose suffix has no closing brace, the decoded plan is exactly the
embedded object. -/
theorem thmC2_codec_amended :
    (∀ raw : Str, (∀ xs ys, raw = xs ++ lbrace :: ys → rbrace ∉ ys) →
        extract_json raw = .error .noJson) ∧
    (∀ (pre s suf : Str) (v : Json), lbrace ∉ pre → rbrace ∉ suf →
        s.head? = some lbrace → s.getLast? = some rbrace → json_loads s = some v →
        extract_json (pre ++ s ++ suf) = .ok v) := by
  constructor
  · intro raw h
    unfold extract_json
    rw [extractSpanNone raw h]
  · intro pre s suf v hpre hsuf hhead hlast hparse
    cases s with
    | nil => simp at hhead
    | cons a mid =>
      have ha : a = lbrace := by simpa using hhead
      subst ha
      have hmidlast : mid.getLast? = some rbrace := by
        cases mid with
        | nil => simp at hlast; exact absurd hlast (by decide)
        | cons b t => rw [List.getLast?_cons_cons] at hlast; exact hlast
      have hassoc : pre ++ (lbrace :: mid) ++ suf = pre ++ lbrace :: (mid ++ suf) := by simp
      rw [hassoc]
      unfold extract_json
      rw [extractSpanAppend pre _ hpre]
      have hmem : rbrace ∈ mid ++ suf :=
        List.mem_append_left suf (List.mem_of_mem_getLast? (by rw [hmidlast]; exact rfl))
      simp only [extractSpan]
      rw [if_pos ⟨trivial, hmem⟩, upToLastCloseAppend mid suf hsuf hmidlast]
      simp only [hparse]

/-- C2 counterexample: a raw text that embeds a balanced, decodable
plan object in surrounding prose, yet whose trailing prose contains a
stray closing brace: the greedy span runs to that last brace, parsing
fails with the malformed error, and decoding does not return the
embedded object — refuting the claimed first-balanced-object
extraction.  The second conjunct shows the embedded substring alone is
a decodable object; the third that the decode result is not that
object. -/
theorem thmC2_codec_counterexample :
    extract_json (("ok \x7b\"summary\": \"s\", \"actions\": []\x7d tail \x7d").toList) =
      .error .malformed ∧
    json_loads (("\x7b\"summary\": \"s\", \"actions\": []\x7d").toList) =
      some (.obj [((("summary").toList), .str (("s").toList)),
                  ((("actions").toList), .arr [])]) ∧
    extract_json (("ok \x7b\"summary\": \"s\", \"actions\": []\x7d tail \x7d").toList) ≠
      .ok (.obj [((("summary").toList), .str (("s").toList)),
                 ((("actions").toList), .arr [])]) :=
  ⟨rfl, rfl, fun h => Except.noConfusion h⟩

/-- C2 witness: the amended theorem applied at concrete inputs — an
empty object embedded in brace-free prose decodes to the empty object,
and brace-free text fails with the no-plan error. -/
theorem thmC2_codec_witness :
    extract_json (("see ").toList ++ ("\x7b\x7d").toList ++ (" done").toList) =
      .ok (.obj []) ∧
    extract_json (("nothing here").toList) = .error .noJson := by
  constructor
  · exact thmC2_codec_amended.2 (("see ").toList) (("\x7b\x7d").toList) ((" done").toList)
      (.obj []) (by decide) (by decide) (by decide) (by decide) rfl
  · refine thmC2_codec_amended.1 (("nothing here").toList) ?_
    intro xs ys hxy
    have : lbrace ∈ (("nothing here").toList) := by
      rw [hxy]; exact List.mem_append_right xs (List.mem_cons_self lbrace ys)
    exact absurd this (by decide)

/-- C8: when the stop flag reads true at the poll opening an
iteration, the loop ends immediately in the StoppedByUser state
without invoking the model provider for that iteration (no call is
recorded and no operation runs); and the flag is also polled before
each action, so a set flag observed there breaks out of the action
loop without dispatching the pending or any later action of the plan. -/
theorem thmC8_stop_flag :
    (∀ (env : Env) (i r : Nat) (st : LoopSt), env.stop st.polls = true →
        runFrom env i (r + 1) st = ⟨.stoppedByUser, bump st, [], []⟩) ∧
    (∀ (env : Env) (a : Json) (rest : List Json) (st : LoopSt) (outs : List Str),
        env.stop st.polls = true →
        execActions env (a :: rest) st outs = (.stopBreak outs, bump st, [])) := by
  constructor
  · intro env i r st h
    simp [runFrom, iterStep, h]
  · intro env a rest st outs h
    simp [execActions, h]

/-- C8 witness: with the flag set from the start, a three-iteration
run ends StoppedByUser with no provider calls and no operations, and
the action loop breaks before its first action. -/
theorem thmC8_stop_flag_witness :
    runFrom (mkEnv (("x").toList) (fun _ => true) 3) 1 3 st0 =
      ⟨.stoppedByUser, ⟨FS.empty, [], [], 1⟩, [], []⟩ ∧
    execActions (mkEnv (("x").toList) (fun _ => true) 3) [Json.null] st0 [] =
      (.stopBreak [], ⟨FS.empty, [], [], 1⟩, []) :=
  ⟨thmC8_stop_flag.1 (mkEnv (("x").toList) (fun _ => true) 3) 1 2 st0 rfl,
   thmC8_stop_flag.2 (mkEnv (("x").toList) (fun _ => true) 3) Json.null [] st0 [] rfl⟩

/-- C6: an iteration whose response fails to decode records the decode
failure text as last_output for the next prompt and continues to the
next iteration: its only recorded event is the model call (no
executor operation runs), and the run's outcome is whatever the
remaining iterations produce — the decode failure is never fatal. -/
theorem thmC6_decode_failure_continues (env : Env) (i r : Nat) (st : LoopSt)
    (e : ExtractErr) (hstop : env.stop st.polls = false)
    (hdec : extract_json (env.llm (build_prompt env i st.history st.last_output)) =
      .error e) :
    runFrom env i (r + 1) st =
      ⟨(runFrom env (i + 1) r { bump st with last_output := excStr e }).exit,
       (runFrom env (i + 1) r { bump st with last_output := excStr e }).st,
       (i, build_prompt env i st.history st.last_output,
         env.llm (build_prompt env i st.history st.last_output)) ::
           (runFrom env (i + 1) r { bump st with last_output := excStr e }).calls,
       (runFrom env (i + 1) r { bump st with last_output := excStr e }).ops⟩ := by
  have h1 : (bump st).history = st.history := rfl
  have h2 : (bump st).last_output = st.last_output := rfl
  simp only [runFrom, iterStep, hstop, Bool.false_eq_true, if_false, h1, h2, hdec]

/-- C6 witness: a provider answering brace-free text makes iteration 1
record the no-plan failure text and continue (here into exhaustion of
a one-iteration budget), with the single model call recorded and no
operation run. -/
theorem thmC6_decode_failure_continues_witness :
    runFrom (mkEnv (("nope").toList) (fun _ => false) 1) 1 1 st0 =
      ⟨(runFrom (mkEnv (("nope").toList) (fun _ => false) 1) 2 0
          { bump st0 with last_output := excStr .noJson }).exit,
       (runFrom (mkEnv (("nope").toList) (fun _ => false) 1) 2 0
          { bump st0 with last_output := excStr .noJson }).st,
       (1, build_prompt (mkEnv (("nope").toList) (fun _ => false) 1) 1 st0.history
            st0.last_output,
         (mkEnv (("nope").toList) (fun _ => false) 1).llm
           (build_prompt (mkEnv (("nope").toList) (fun _ => false) 1) 1 st0.history
             st0.last_output)) ::
           (runFrom (mkEnv (("nope").toList) (fun _ => false) 1) 2 0
              { bump st0 with last_output := excStr .noJson }).calls,
       (runFrom (mkEnv (("nope").toList) (fun _ => false) 1) 2 0
          { bump st0 with last_output := excStr .noJson }).ops⟩ :=
  thmC6_decode_failure_continues (mkEnv (("nope").toList) (fun _ => false) 1) 1 0 st0
    .noJson rfl rfl

/-- Dispatching a dict whose type tag is done returns the early-return
outcome carrying the reason (defaulting to the fixed text), leaving
state untouched. -/
theorem dispatchDone (env : Env) (kvs : List (Str × Json)) (st : LoopSt)
    (h : getField kvs (("type").toList) = some (.str (("done").toList))) :
    dispatch env kvs st =
      (.ddone (pyStr ((getField kvs (("reason").toList)).getD
          (.str (("Terminé.").toList)))),
       st,
       [.doneO (pyStr ((getField kvs (("reason").toList)).getD
          (.str (("Terminé.").toList))))]) := by
  have e1 : isTypeStr (Json.str (("done").toList)) (("mkdir").toList) = false := by decide
  have e2 : isTypeStr (Json.str (("done").toList)) (("write_file").toList) = false := by decide
  have e3 : isTypeStr (Json.str (("done").toList)) (("append_file").toList) = false := by decide
  have e4 : isTypeStr (Json.str (("done").toList)) (("read_file").toList) = false := by decide
  have e5 : isTypeStr (Json.str (("done").toList)) (("run").toList) = false := by decide
  have e6 : isTypeStr (Json.str (("done").toList)) (("done").toList) = true := by decide
  unfold dispatch
  rw [h]
  simp only [Option.getD_some, e1, e2, e3, e4, e5, e6, Bool.false_eq_true, if_false, if_true]

/-- C5: actions after the first done action in a plan are dead — the
inner loop's behaviour on a list with a done action is identical to
the behaviour with everything after that done action removed (so no
later action is ever executed, whatever it is); concretely, the run
whose provider emits a plan with a done first and a run second ends
StoppedByPlan, never performs the run command, and its only operation
is the done return. -/
theorem thmC5_done_terminates :
    (∀ (env : Env) (st : LoopSt) (outs : List Str) (l1 l2 : List Json)
        (kvs : List (Str × Json)),
        getField kvs (("type").toList) = some (.str (("done").toList)) →
        execActions env (l1 ++ Json.obj kvs :: l2) st outs =
          execActions env (l1 ++ [Json.obj kvs]) st outs) ∧
    ((run_cycle envC5 FS.empty).exit = .stoppedByPlan ∧
      Op.runO (("make").toList) ∉ (run_cycle envC5 FS.empty).ops ∧
      (run_cycle envC5 FS.empty).ops = [Op.doneO (("ok").toList)]) := by
  constructor
  · intro env st outs l1 l2 kvs hdone
    induction l1 generalizing st outs with
    | nil =>
      simp only [List.nil_append]
      by_cases hs : env.stop st.polls = true
      · simp [execActions, hs]
      · simp only [execActions, hs, Bool.false_eq_true, if_false,
          dispatchDone env kvs (bump st) hdone]
    | cons a l1 ih =>
      simp only [List.cons_append]
      by_cases hs : env.stop st.polls = true
      · simp [execActions, hs]
      · cases a with
        | obj fields =>
          rcases hdisp : dispatch env fields (bump st) with ⟨dr, st2, ops⟩
          cases dr with
          | ddone reason => simp only [execActions, hs, Bool.false_eq_true, if_false, hdisp]
          | dnone =>
            simp only [execActions, hs, Bool.false_eq_true, if_false, hdisp, ih st2 outs]
          | dout o =>
            simp only [execActions, hs, Bool.false_eq_true, if_false, hdisp,
              ih st2 (outs ++ [o])]
        | null => simp [execActions, hs]
        | bool b => simp [execActions, hs]
        | num t => simp [execActions, hs]
        | str s => simp [execActions, hs]
        | arr l => simp [execActions, hs]
  · exact ⟨rfl, by decide, rfl⟩

/-- C5 witness: the short-circuit equation instantiated at a concrete
done action followed by a concrete run action. -/
theorem thmC5_done_terminates_witness :
    execActions envC5 ([] ++ Json.obj doneKvs :: [runAct]) st0 [] =
      execActions envC5 ([] ++ [Json.obj doneKvs]) st0 [] :=
  thmC5_done_terminates.1 envC5 st0 [] [] [runAct] doneKvs rfl

/-- C3 amended: a decoded plan with a missing summary proceeds with
the placeholder summary, and a missing actions field is an empty plan
— the iteration executes no action and the run continues; but an
actions field present with a non-iterable value (a number, boolean or
null) is used as-is and the len() call raises an uncaught TypeError
that is fatal to the run (before the summary line even reaches the
history), rather than being treated as an empty plan. -/
theorem thmC3_plan_defaults_amended :
    (∀ (env : Env) (i r : Nat) (st : LoopSt) (kvs : List (Str × Json)),
        env.stop st.polls = false →
        extract_json (env.llm (build_prompt env i st.history st.last_output)) =
          .ok (.obj kvs) →
        getField kvs (("summary").toList) = none →
        getField kvs (("actions").toList) = none →
        runFrom env i (r + 1) st =
          ⟨(runFrom env (i + 1) r
              { bump st with
                  history := st.history ++ iterLine i (.str placeholderSummary),
                  last_output := [] }).exit,
           (runFrom env (i + 1) r
              { bump st with
                  history := st.history ++ iterLine i (.str placeholderSummary),
                  last_output := [] }).st,
           (i, build_prompt env i st.history st.last_output,
             env.llm (build_prompt env i st.history st.last_output)) ::
               (runFrom env (i + 1) r
                  { bump st with
                      history := st.history ++ iterLine i (.str placeholderSummary),
                      last_output := [] }).calls,
           (runFrom env (i + 1) r
              { bump st with
                  history := st.history ++ iterLine i (.str placeholderSummary),
                  last_output := [] }).ops⟩) ∧
    (∀ (env : Env) (i r : Nat) (st : LoopSt) (kvs : List (Str × Json)) (v : Json),
        env.stop st.polls = false →
        extract_json (env.llm (build_prompt env i st.history st.last_output)) =
          .ok (.obj kvs) →
        getField kvs (("actions").toList) = some v →
        iterElems v = none →
        runFrom env i (r + 1) st =
          ⟨.fatal, bump st,
           [(i, build_prompt env i st.history st.last_output,
              env.llm (build_prompt env i st.history st.last_output))], []⟩) := by
  have h1 : ∀ st : LoopSt, (bump st).history = st.history := fun _ => rfl
  have h2 : ∀ st : LoopSt, (bump st).last_output = st.last_output := fun _ => rfl
  have hj : joinOuts [] = ([] : Str) := rfl
  constructor
  · intro env i r st kvs hstop hdec hsum hact
    simp only [runFrom, iterStep, hstop, Bool.false_eq_true, if_false, h1, h2, hdec,
      planGet, hsum, hact, Option.getD_none, iterElems, execActions, hj, List.nil_append]
  · intro env i r st kvs v hstop hdec hact hv
    simp only [runFrom, iterStep, hstop, Bool.false_eq_true, if_false, h1, h2, hdec,
      planGet, hact, Option.getD_some, hv]

/-- C3 counterexample: a provider answering a decodable plan whose
actions field is null makes the run abort fatally after its first
model call, instead of treating the plan as empty and continuing — on
a two-iteration budget the claimed behaviour would have reached the
second iteration. -/
theorem thmC3_counterexample :
    (run_cycle envC3X FS.empty).exit = .fatal ∧
    (run_cycle envC3X FS.empty).calls.length = 1 ∧
    Exit.fatal ≠ Exit.exhausted := ⟨rfl, rfl, by decide⟩

/-- C3 witness: both amended branches at concrete inputs — a plan
missing both fields proceeds on the placeholder with no actions, and
a plan whose actions value is the boolean true dies fatally. -/
theorem thmC3_plan_defaults_amended_witness :
    runFrom (mkEnv (("\x7b\"x\": 1\x7d").toList) (fun _ => false) 1) 1 1 st0 =
      ⟨(runFrom (mkEnv (("\x7b\"x\": 1\x7d").toList) (fun _ => false) 1) 2 0
          { bump st0 with
              history := st0.history ++ iterLine 1 (.str placeholderSummary),
              last_output := [] }).exit,
       (runFrom (mkEnv (("\x7b\"x\": 1\x7d").toList) (fun _ => false) 1) 2 0
          { bump st0 with
              history := st0.history ++ iterLine 1 (.str placeholderSummary),
              last_output := [] }).st,
       (1, build_prompt (mkEnv (("\x7b\"x\": 1\x7d").toList) (fun _ => false) 1) 1
            st0.history st0.last_output,
         (mkEnv (("\x7b\"x\": 1\x7d").toList) (fun _ => false) 1).llm
           (build_prompt (mkEnv (("\x7b\"x\": 1\x7d").toList) (fun _ => false) 1) 1
             st0.history st0.last_output)) ::
           (runFrom (mkEnv (("\x7b\"x\": 1\x7d").toList) (fun _ => false) 1) 2 0
              { bump st0 with
                  history := st0.history ++ iterLine 1 (.str placeholderSummary),
                  last_output := [] }).calls,
       (runFrom (mkEnv (("\x7b\"x\": 1\x7d").toList) (fun _ => false) 1) 2 0
          { bump st0 with
              history := st0.history ++ iterLine 1 (.str placeholderSummary),
              last_output := [] }).ops⟩ ∧
    runFrom (mkEnv (("\x7b\"actions\": true\x7d").toList) (fun _ => false) 1) 1 1 st0 =
      ⟨.fatal, bump st0,
       [(1, build_prompt (mkEnv (("\x7b\"actions\": true\x7d").toList) (fun _ => false) 1) 1
            st0.history st0.last_output,
         (mkEnv (("\x7b\"actions\": true\x7d").toList) (fun _ => false) 1).llm
           (build_prompt (mkEnv (("\x7b\"actions\": true\x7d").toList) (fun _ => false) 1) 1
             st0.history st0.last_output))], []⟩ :=
  ⟨thmC3_plan_defaults_amended.1 (mkEnv (("\x7b\"x\": 1\x7d").toList) (fun _ => false) 1)
      1 0 st0 [((("x").toList), Json.num (("1").toList))] rfl rfl rfl rfl,
   thmC3_plan_defaults_amended.2
      (mkEnv (("\x7b\"actions\": true\x7d").toList) (fun _ => false) 1)
      1 0 st0 [((("actions").toList), Json.bool true)] (Json.bool true) rfl rfl rfl rfl⟩

/-- The mkdir branch never early-returns. -/
theorem doMkdirNotDone (env : Env) (fields : List (Str × Json)) (st : LoopSt)
    (reason : Str) : (doMkdir env fields st).1 ≠ .ddone reason := by
  unfold doMkdir
  split
  · split <;> simp
  · simp
  · simp

/-- The write_file branch never early-returns. -/
theorem doWriteNotDone (env : Env) (fields : List (Str × Json)) (st : LoopSt)
    (reason : Str) : (doWrite env fields st).1 ≠ .ddone reason := by
  unfold doWrite
  split
  · split
    · split <;> simp
    · simp
  · simp
  · simp

/-- The append_file branch never early-returns. -/
theorem doAppendNotDone (env : Env) (fields : List (Str × Json)) (st : LoopSt)
    (reason : Str) : (doAppend env fields st).1 ≠ .ddone reason := by
  unfold doAppend
  split
  · split
    · split <;> simp
    · simp
  · simp
  · simp

/-- The read_file branch never early-returns. -/
theorem doReadNotDone (env : Env) (fields : List (Str × Json)) (st : LoopSt)
    (reason : Str) : (doRead env fields st).1 ≠ .ddone reason := by
  unfold doRead
  split
  · split <;> simp
  · simp
  · simp

/-- The run branch never early-returns. -/
theorem doRunNotDone (env : Env) (fields : List (Str × Json)) (st : LoopSt)
    (reason : Str) : (doRun env fields st).1 ≠ .ddone reason := by
  unfold doRun
  split
  · split
    simp
  · simp
  · simp

/-- Dispatching a dict whose type tag is not done never produces the
early-return outcome. -/
theorem dispatchNotDone (env : Env) (kvs : List (Str × Json)) (st : LoopSt)
    (h : notDoneField (getField kvs (("type").toList)) = true) (reason : Str) :
    (dispatch env kvs st).1 ≠ .ddone reason := by
  have hdone : isTypeStr ((getField kvs (("type").toList)).getD (.str []))
      (("done").toList) = false := by
    cases hgf : getField kvs (("type").toList) with
    | none => simp [Option.getD_none, isTypeStr]
    | some v =>
      cases v with
      | str s =>
        rw [hgf] at h
        simp only [notDoneField, Bool.not_eq_true'] at h
        simp only [Option.getD_some, isTypeStr]
        exact h
      | null => simp [Option.getD_some, isTypeStr]
      | bool b => simp [Option.getD_some, isTypeStr]
      | num t => simp [Option.getD_some, isTypeStr]
      | arr l => simp [Option.getD_some, isTypeStr]
      | obj o => simp [Option.getD_some, isTypeStr]
  simp only [dispatch]
  split
  · exact doMkdirNotDone env kvs st reason
  · split
    · exact doWriteNotDone env kvs st reason
    · split
      · exact doAppendNotDone env kvs st reason
      · split
        · exact doReadNotDone env kvs st reason
        · split
          · exact doRunNotDone env kvs st reason
          · split
            · rename_i hcond
              exact absurd (hdone.symm.trans hcond) (by decide)
            · simp

/-- With the stop flag never set, a list of well-formed
non-terminating actions runs to completion: the inner loop neither
early-returns nor dies. -/
theorem execGoodCompleted (env : Env) (hstop : ∀ n, env.stop n = false) :
    ∀ (l : List Json), (∀ a ∈ l, isGoodActB a = true) → ∀ (st : LoopSt) (outs : List Str),
      ∃ outs2 st2 ops, execActions env l st outs = (.completed outs2, st2, ops) := by
  intro l
  induction l with
  | nil => exact fun _ st outs => ⟨outs, st, [], rfl⟩
  | cons a rest ih =>
    intro hall st outs
    have hga := hall a (List.mem_cons_self a rest)
    have hrest := fun b hb => hall b (List.mem_cons_of_mem a hb)
    cases a with
    | obj kvs =>
      have hnd : notDoneField (getField kvs (("type").toList)) = true := by
        simpa [isGoodActB] using hga
      rcases hdisp : dispatch env kvs (bump st) with ⟨dr, st2, ops⟩
      cases dr with
      | ddone reason =>
        exact absurd (by rw [hdisp] : (dispatch env kvs (bump st)).1 = .ddone reason)
          (dispatchNotDone env kvs (bump st) hnd reason)
      | dnone =>
        obtain ⟨o2, s2, op2, heq⟩ := ih hrest st2 outs
        refine ⟨o2, s2, ops ++ op2, ?_⟩
        simp only [execActions, hstop st.polls, Bool.false_eq_true, if_false, hdisp, heq]
      | dout o =>
        obtain ⟨o2, s2, op2, heq⟩ := ih hrest st2 (outs ++ [o])
        refine ⟨o2, s2, ops ++ op2, ?_⟩
        simp only [execActions, hstop st.polls, Bool.false_eq_true, if_false, hdisp, heq]
    | null => simp [isGoodActB] at hga
    | bool b => simp [isGoodActB] at hga
    | num t => simp [isGoodActB] at hga
    | str s => simp [isGoodActB] at hga
    | arr l2 => simp [isGoodActB] at hga

/-- C7 amended: with the stop flag never set and a provider whose
every answer either fails to decode or decodes to a plan whose actions
are a sequence of well-formed non-terminating actions, the loop ends
Exhausted after exactly one model invocation per remaining iteration
(iterations with undecodable responses included).  Starting run_cycle
with budget N therefore makes exactly N invocations. -/
theorem thmC7_exhaustion_amended (env : Env)
    (hstop : ∀ n, env.stop n = false)
    (hresp : ∀ s, goodRespB (env.llm s) = true) :
    ∀ (r i : Nat) (st : LoopSt),
      (runFrom env i r st).exit = .exhausted ∧
      (runFrom env i r st).calls.length = r := by
  intro r
  induction r with
  | zero => exact fun i st => ⟨rfl, rfl⟩
  | succ r ih =>
    intro i st
    have hg := hresp (build_prompt env i (bump st).history (bump st).last_output)
    cases hext : extract_json (env.llm
        (build_prompt env i (bump st).history (bump st).last_output)) with
    | error e =>
      have h1 := ih (i + 1) { bump st with last_output := excStr e }
      constructor
      · simp only [runFrom, iterStep, hstop st.polls, Bool.false_eq_true, if_false, hext]
        exact h1.1
      · simp only [runFrom, iterStep, hstop st.polls, Bool.false_eq_true, if_false, hext,
          List.length_cons, h1.2]
    | ok p =>
      have hg2 : (match (planGet p (("actions").toList)).getD (.arr []) with
          | Json.arr l => l.all isGoodActB
          | _ => false) = true := by
        unfold goodRespB at hg
        rw [hext] at hg
        exact hg
      cases hv : (planGet p (("actions").toList)).getD (.arr []) with
      | null => rw [hv] at hg2; exact Bool.noConfusion hg2
      | bool b => rw [hv] at hg2; exact Bool.noConfusion hg2
      | num t => rw [hv] at hg2; exact Bool.noConfusion hg2
      | str s => rw [hv] at hg2; exact Bool.noConfusion hg2
      | obj o => rw [hv] at hg2; exact Bool.noConfusion hg2
      | arr l =>
        rw [hv] at hg2
        have hallmem : ∀ a ∈ l, isGoodActB a = true := by
          intro a ha
          exact List.all_eq_true.mp hg2 a ha
        obtain ⟨o2, s2, ops2, heq⟩ := execGoodCompleted env hstop l hallmem
          { bump st with
              history := (bump st).history ++
                iterLine i ((planGet p (("summary").toList)).getD
                  (.str placeholderSummary)) } []
        have h1 := ih (i + 1) { s2 with last_output := joinOuts o2 }
        constructor
        · simp only [runFrom, iterStep, hstop st.polls, Bool.false_eq_true, if_false, hext,
            hv, iterElems, heq]
          exact h1.1
        · simp only [runFrom, iterStep, hstop st.polls, Bool.false_eq_true, if_false, hext,
            hv, iterElems, heq, List.length_cons, h1.2]

/-- C7 counterexample: a provider that always answers and never emits
a done action (every answer decodes to a plan whose actions value is
the number 5), on a three-iteration budget: the run ends fatal, not
Exhausted, after a single model invocation rather than three. -/
theorem thmC7_counterexample :
    (run_cycle envC7X FS.empty).exit = .fatal ∧
    (run_cycle envC7X FS.empty).calls.length = 1 ∧
    Exit.fatal ≠ Exit.exhausted := ⟨rfl, rfl, by decide⟩

/-- C7 witness: a provider whose answers never decode runs a
three-iteration budget to Exhausted with exactly three invocations. -/
theorem thmC7_exhaustion_amended_witness :
    (runFrom (mkEnv (("no json").toList) (fun _ => false) 3) 1 3 st0).exit = .exhausted ∧
    (runFrom (mkEnv (("no json").toList) (fun _ => false) 3) 1 3 st0).calls.length = 3 :=
  thmC7_exhaustion_amended (mkEnv (("no json").toList) (fun _ => false) 3)
    (fun _ => rfl) (fun _ => rfl) 3 1 st0
